import Mathlib

/-!
Shallow embedding of `neusomatic/python/scan_alignments.py` (a Python 2 module).

The module has two functions:
* `run_scan_alignments` — the per-work-unit worker executed inside a
  `multiprocessing.Pool` worker process;
* `scan_alignments` — the orchestrator: region partitioning (lines 74-107)
  followed by parallel work dispatch (lines 109-145).

External effects (filesystem existence checks, the external scanning binary,
`pysam.tabix_index`, `concatenate_files`, the `split_region` collaborator from
`split_bed.py`, and the `glob` result) are modelled as explicit inputs: a
`WorkerEnv` / `DispatchState` record says which files and directories exist and
whether each external call succeeds, and the worker / dispatcher are pure
functions of that state.  Python 2 `/` on ints is floor division, modelled by
`Nat` division.  The float literal `0.98` of line 92 is modelled by the exact
rational comparison `100 * len >= 98 * total`.
-/

set_option autoImplicit false

namespace ScanAlignments

/-! ### Region partitioner (lines 74-107) -/

/-- Line 101-102:
`num_split = max(int(np.ceil((total_len / 10000000) / num_threads) * num_threads), num_threads)`.
`total_len` and `num_threads` are Python 2 ints, so both `/` are floor
divisions and `np.ceil` is applied to an integer value (exact below `2^53`,
far above any genome length), hence `int(np.ceil(q) * k) = q * k`. -/
def num_split (total_len num_threads : Nat) : Nat :=
  max (total_len / 10000000 / num_threads * num_threads) num_threads

/-- Modelled from the spec's words, for comparison with `num_split`: the same
formula with exact real-valued divisions before the ceiling, as the spec
states it: `max(ceil((total_len / 10_000_000) / num_threads) * num_threads,
num_threads)`. -/
def num_split_realdiv (total_len num_threads : Nat) : Nat :=
  max ((⌈(total_len : ℚ) / 10000000 / (num_threads : ℚ)⌉).toNat * num_threads)
    num_threads

/-- A pre-existing `region_<idx>.bed` file found by the glob of line 89:
`idx` is the chunk index embedded in the filename (parsed on lines 94-96 as
`int(basename.split(".bed")[0].split("_")[1])`), `len` the total covered
length of its intervals (line 90-91). -/
structure PriorFile where
  idx : Nat
  len : Nat
deriving DecidableEq, Repr

/-- Line 90-91: `spilt_total_len = sum(... y.length ...)` over the glob. -/
def priorTotalLen (fs : List PriorFile) : Nat :=
  (fs.map PriorFile.len).sum

/-- Lines 93-96: `sorted(split_region_files, key=... chunk index ...)`. -/
def sortByIdx (fs : List PriorFile) : List PriorFile :=
  List.insertionSort (fun a b => a.idx ≤ b.idx) fs

/-- Which list of split region files the partitioner block (lines 74-107)
settles on. -/
inductive SplitChoice where
  /-- the caller-supplied `split_region_files` list is used verbatim
  (the `else` of line 105). -/
  | caller : SplitChoice
  /-- pre-existing `region_*.bed` files from the work directory are used,
  in the given order. -/
  | reuse (files : List PriorFile) : SplitChoice
  /-- lines 97-104: repartition `all_regions.bed` into `numSplit` chunks via
  `split_region`. -/
  | fresh (numSplit : Nat) : SplitChoice
deriving DecidableEq, Repr

/-- The default of the `restart` keyword parameter (line 67). -/
def restart_default : Bool := true

/-- Lines 74-107.  `callerFilesEmpty` is the line 74 test
`if not split_region_files:` on the caller-supplied argument; `globFiles` is
the line 89 glob result in glob order; `totalLen` is the line 86 sum. -/
def selectSplit (restart : Bool) (callerFilesEmpty : Bool)
    (globFiles : List PriorFile) (totalLen numThreads : Nat) : SplitChoice :=
  if !callerFilesEmpty then .caller
  else
    let srf : List PriorFile :=
      if !restart then
        if 100 * priorTotalLen globFiles ≥ 98 * totalLen then
          sortByIdx globFiles
        else globFiles
      else []
    if srf.isEmpty then .fresh (num_split totalLen numThreads)
    else .reuse srf

/-- Whether the `region_*.bed` reuse scan of lines 88-96 runs at all: only
when no caller list was supplied (line 74) and `restart` is false (line 88). -/
def scansPriorRegions (restart : Bool) (callerFilesEmpty : Bool) : Bool :=
  callerFilesEmpty && !restart

/-! ### Per-unit worker `run_scan_alignments` (lines 27-62) -/

/-- The external state a single worker invocation sees. -/
structure WorkerEnv where
  /-- line 33: `os.path.exists(scan_alignments_binary)`. -/
  binaryExists : Bool
  /-- line 35: `os.path.exists(work)`. -/
  workDirExists : Bool
  /-- line 37: `len(pybedtools.BedTool(split_region_file))`. -/
  regionCount : Nat
  /-- whether the external binary invocation of lines 38-46 succeeds. -/
  binaryRunOk : Bool
  /-- whether `pysam.tabix_index` (line 51) succeeds. -/
  tabixOk : Bool
  /-- whether `concatenate_files` (lines 52-53) succeeds. -/
  concatOk : Bool
deriving DecidableEq, Repr

/-- What one worker invocation did and returned.  `result = none` models the
`return None` of the `except` clause (line 62). -/
structure WorkerOutcome where
  result : Option (String × String × String)
  /-- the external binary was invoked (lines 38-46). -/
  invokedBinary : Bool
  /-- empty `candidates.vcf` / `count.bed` were written directly
  (lines 48-49). -/
  wroteEmptyOutputs : Bool
  /-- `count.bed` was compressed and indexed (line 51). -/
  indexedCount : Bool
  /-- `region.bed` was materialized (lines 52-53). -/
  wroteRegionBed : Bool
  /-- the work directory was created (line 36). -/
  createdWorkDir : Bool
deriving DecidableEq, Repr

/-- Lines 27-62, with the tuple argument's external parts abstracted into
`env` and `work` the unit directory path.  Any raised exception falls into
the `except` clause and yields `result = none`. -/
def run_scan_alignments (env : WorkerEnv) (work : String) : WorkerOutcome :=
  if !env.binaryExists then
    -- line 34: IOError raised before anything else happens
    ⟨none, false, false, false, false, false⟩
  else
    let created := !env.workDirExists
    if env.regionCount > 0 then
      if !env.binaryRunOk then ⟨none, true, false, false, false, created⟩
      else if !env.tabixOk then ⟨none, true, false, false, false, created⟩
      else if !env.concatOk then ⟨none, true, false, true, false, created⟩
      else
        ⟨some (work ++ "/candidates.vcf", work ++ "/count.bed.gz",
            work ++ "/region.bed"),
          true, false, true, true, created⟩
    else
      if !env.tabixOk then ⟨none, false, true, false, false, created⟩
      else if !env.concatOk then ⟨none, false, true, true, false, created⟩
      else
        ⟨some (work ++ "/candidates.vcf", work ++ "/count.bed.gz",
            work ++ "/region.bed"),
          false, true, true, true, created⟩

/-! ### Parallel work dispatcher (lines 109-145) -/

/-- Existence of the three per-unit output files tested on lines 113-115. -/
structure UnitFiles where
  regionBed : Bool
  candidatesVcf : Bool
  countBedGz : Bool
deriving DecidableEq, Repr

/-- Negation of the line 113-115 re-run condition
`restart or not region.bed or not candidates.vcf or not count.bed.gz`:
a unit is Done (skipped) iff `restart` is false and all three files exist. -/
def unitDone (restart : Bool) (u : UnitFiles) : Bool :=
  !restart && u.regionBed && u.candidatesVcf && u.countBedGz

/-- The external state the dispatcher and its workers see, per unit index. -/
structure DispatchState where
  /-- per-unit existence of the three output files (lines 113-115). -/
  unitFiles : Nat → UnitFiles
  /-- line 117: `os.path.exists(work_)` for `work.<i>`. -/
  dirExists : Nat → Bool
  /-- existence of `scan_alignments_binary` (checked inside each worker). -/
  binaryExists : Bool
  /-- number of intervals of the i-th split region file. -/
  regionCount : Nat → Nat
  /-- per-unit success of the external binary invocation. -/
  binaryRunOk : Nat → Bool
  /-- per-unit success of `pysam.tabix_index`. -/
  tabixOk : Nat → Bool
  /-- per-unit success of `concatenate_files`. -/
  concatOk : Nat → Bool

/-- `os.path.join(work, "work.{}".format(i))`. -/
def workPath (work : String) (i : Nat) : String :=
  work ++ "/work." ++ toString i

/-- The result triple recorded for a Done unit (lines 124-127); a successful
worker returns the same three paths (line 54). -/
def unitTriple (work : String) (i : Nat) : String × String × String :=
  (workPath work i ++ "/candidates.vcf", workPath work i ++ "/count.bed.gz",
    workPath work i ++ "/region.bed")

/-- The `WorkerEnv` a queued unit runs under: its `work.<i>` directory was
deleted on lines 117-118 if it existed, so the worker starts with no
directory. -/
def queuedEnv (st : DispatchState) (i : Nat) : WorkerEnv :=
  ⟨st.binaryExists, false, st.regionCount i, st.binaryRunOk i,
    st.tabixOk i, st.concatOk i⟩

/-- The `result` of running unit `i`'s worker. -/
def workerResult (st : DispatchState) (work : String) (i : Nat) :
    Option (String × String × String) :=
  (run_scan_alignments (queuedEnv st i) (workPath work i)).result

/-- The `not_done` list built by the loop of lines 112-122, in loop order. -/
def notDoneIdx (st : DispatchState) (restart : Bool) (n : Nat) : List Nat :=
  (List.range n).filter (fun i => !unitDone restart (st.unitFiles i))

/-- The indices recorded as Done by the `else` branch (lines 123-127). -/
def doneIdx (st : DispatchState) (restart : Bool) (n : Nat) : List Nat :=
  (List.range n).filter (fun i => unitDone restart (st.unitFiles i))

/-- The units whose `work.<i>` directory is removed by `shutil.rmtree`
(lines 117-118): the queued units whose directory exists. -/
def deletedDirs (st : DispatchState) (restart : Bool) (n : Nat) : List Nat :=
  (notDoneIdx st restart n).filter (fun i => st.dirExists i)

/-- `all_outputs = [[]] * n` (line 110) after the Done units are filled in
(lines 124-127): `none` models the `[]` placeholder. -/
def initOutputs (work : String) (st : DispatchState) (restart : Bool)
    (n : Nat) : List (Option (String × String × String)) :=
  (List.range n).map (fun i =>
    if unitDone restart (st.unitFiles i) then some (unitTriple work i)
    else none)

/-- `pool.map_async(run_scan_alignments, map_args).get()` (line 131), with the
pool's internals made explicit: workers finish in the completion order
`order` (a list of positions into `args`), and the pool hands back the
results re-sequenced by submission position.  Whenever `order` covers every
position, this equals `args.map f`. -/
def poolOutputs {T : Type} (f : Nat → Option T) (args : List Nat)
    (order : List Nat) : List (Option T) :=
  (List.range args.length).map (fun j =>
    match order.find? (fun k => k == j) with
    | some k => ((args.get? k).bind f)
    | none => none)

/-- The fill loop of lines 143-144:
`for i, output in zip(not_done, outputs): all_outputs[i] = output`. -/
def fillNotDone (nd : List Nat)
    (outs : List (Option (String × String × String)))
    (base : List (Option (String × String × String))) :
    List (Option (String × String × String)) :=
  (nd.zip outs).foldl (fun acc p => acc.set p.1 p.2) base

/-- The dispatcher (lines 109-145) for `n` split region files, under
completion order `order`.  `Except.error ()` models the
`raise Exception("scan_alignments failed!")` of line 141; on success the
returned list is `all_outputs` (line 145), `none` standing for a never-filled
`[]` placeholder. -/
def scan_alignments (work : String) (st : DispatchState) (n : Nat)
    (order : List Nat) (restart : Bool) :
    Except Unit (List (Option (String × String × String))) :=
  let nd := notDoneIdx st restart n
  let outputs := poolOutputs (fun i => workerResult st work i) nd order
  if outputs.any (fun o => o.isNone) then Except.error ()
  else Except.ok (fillNotDone nd outputs (initOutputs work st restart n))

/-- The `__main__` call site (lines 178-181): `scan_alignments` is called with
ten positional arguments and no `restart` keyword, so the line 67 default
applies. -/
def cli_scan_alignments (work : String) (st : DispatchState) (n : Nat)
    (order : List Nat) :
    Except Unit (List (Option (String × String × String))) :=
  scan_alignments work st n order restart_default

/-! ### Helper lemmas -/

theorem mem_notDoneIdx {st : DispatchState} {restart : Bool} {n i : Nat} :
    i ∈ notDoneIdx st restart n ↔
      i < n ∧ unitDone restart (st.unitFiles i) = false := by
  simp [notDoneIdx, List.mem_filter, List.mem_range]

theorem mem_doneIdx {st : DispatchState} {restart : Bool} {n i : Nat} :
    i ∈ doneIdx st restart n ↔
      i < n ∧ unitDone restart (st.unitFiles i) = true := by
  simp [doneIdx, List.mem_filter, List.mem_range]

theorem any_map_isNone {T : Type} (f : Nat → Option T) (l : List Nat) :
    (l.map f).any (fun o => o.isNone) = l.any (fun i => (f i).isNone) := by
  induction l with
  | nil => rfl
  | cons a l ih => simp [ih]

theorem foldl_set_length {α : Type} :
    ∀ (l : List (Nat × α)) (base : List α),
      (l.foldl (fun acc p => acc.set p.1 p.2) base).length = base.length := by
  intro l
  induction l with
  | nil => intro base; rfl
  | cons a l ih => intro base; simpa using ih (base.set a.1 a.2)

theorem fillNotDone_length (nd : List Nat)
    (outs base : List (Option (String × String × String))) :
    (fillNotDone nd outs base).length = base.length :=
  foldl_set_length _ _

theorem fillNotDone_getElem? (f : Nat → Option (String × String × String)) :
    ∀ (nd : List Nat) (base : List (Option (String × String × String))),
      (∀ i ∈ nd, i < base.length) → ∀ j : Nat,
      (fillNotDone nd (nd.map f) base)[j]? =
        if j ∈ nd then some (f j) else base[j]? := by
  intro nd
  induction nd with
  | nil => intro base _ j; simp [fillNotDone]
  | cons a nd ih =>
    intro base hlt j
    have hstep : fillNotDone (a :: nd) ((a :: nd).map f) base
        = fillNotDone nd (nd.map f) (base.set a (f a)) := by
      simp [fillNotDone]
    have hlt' : ∀ i ∈ nd, i < (base.set a (f a)).length := by
      intro i hi; simpa using hlt i (List.mem_cons_of_mem a hi)
    rw [hstep, ih (base.set a (f a)) hlt' j]
    by_cases hj : j ∈ nd
    · simp [hj]
    · by_cases hja : j = a
      · subst hja
        have hjlt : j < base.length := hlt j (List.mem_cons_self j nd)
        simp [hj, List.getElem?_set, hjlt]
      · have : ¬(a = j) := fun h => hja h.symm
        simp [hj, hja, List.getElem?_set, this]

theorem poolOutputs_eq_map {T : Type} (f : Nat → Option T) (args : List Nat)
    (order : List Nat) (h : ∀ j, j < args.length → j ∈ order) :
    poolOutputs f args order = args.map f := by
  apply List.ext_getElem?
  intro j
  by_cases hj : j < args.length
  · have hmem : j ∈ order := h j hj
    have hsome : (order.find? (fun k => k == j)).isSome := by
      rw [List.find?_isSome]
      exact ⟨j, hmem, by simp⟩
    obtain ⟨k, hk⟩ := Option.isSome_iff_exists.mp hsome
    have hkj : k = j := by simpa using List.find?_some hk
    subst hkj
    simp [poolOutputs, hk, hj, List.getElem?_range, List.getElem?_map]
  · have h1 : (poolOutputs f args order).length = args.length := by
      simp [poolOutputs]
    have h2 : (args.map f).length = args.length := by simp
    rw [List.getElem?_eq_none (by omega), List.getElem?_eq_none (by omega)]

theorem poolOutputs_of_perm {T : Type} (f : Nat → Option T) (args : List Nat)
    (order : List Nat) (hperm : order.Perm (List.range args.length)) :
    poolOutputs f args order = args.map f :=
  poolOutputs_eq_map f args order
    (fun j hj => hperm.mem_iff.2 (List.mem_range.2 hj))

theorem scan_alignments_eq (work : String) (st : DispatchState) (n : Nat)
    (order : List Nat) (restart : Bool)
    (hperm : order.Perm (List.range (notDoneIdx st restart n).length)) :
    scan_alignments work st n order restart =
      if (notDoneIdx st restart n).any
          (fun i => (workerResult st work i).isNone) then Except.error ()
      else Except.ok (fillNotDone (notDoneIdx st restart n)
        ((notDoneIdx st restart n).map (fun i => workerResult st work i))
        (initOutputs work st restart n)) := by
  simp only [scan_alignments]
  rw [poolOutputs_of_perm _ _ _ hperm, any_map_isNone]

theorem workerResult_eq_some {st : DispatchState} {work : String} {i : Nat}
    {t : String × String × String} (h : workerResult st work i = some t) :
    t = unitTriple work i := by
  unfold workerResult run_scan_alignments queuedEnv at h
  unfold unitTriple
  by_cases hb : st.binaryExists <;> simp [hb] at h
  by_cases hr : st.regionCount i > 0 <;> simp [hr] at h
  · by_cases h1 : st.binaryRunOk i <;> simp [h1] at h
    by_cases h2 : st.tabixOk i <;> simp [h2] at h
    by_cases h3 : st.concatOk i <;> simp [h3] at h
    exact h.symm
  · by_cases h2 : st.tabixOk i <;> simp [h2] at h
    by_cases h3 : st.concatOk i <;> simp [h3] at h
    exact h.symm

theorem scan_alignments_ok_facts {work : String} {st : DispatchState} {n : Nat}
    {order : List Nat} {restart : Bool}
    {L : List (Option (String × String × String))}
    (hperm : order.Perm (List.range (notDoneIdx st restart n).length))
    (hok : scan_alignments work st n order restart = Except.ok L) :
    (∀ i ∈ notDoneIdx st restart n,
      workerResult st work i = some (unitTriple work i)) ∧
    L.length = n ∧
    ∀ i : Nat, i < n → L[i]? = some (some (unitTriple work i)) := by
  rw [scan_alignments_eq work st n order restart hperm] at hok
  by_cases hc : (notDoneIdx st restart n).any
      (fun i => (workerResult st work i).isNone)
  · rw [if_pos hc] at hok; exact absurd hok (by simp)
  · rw [if_neg hc] at hok
    have hLeq : L = fillNotDone (notDoneIdx st restart n)
        ((notDoneIdx st restart n).map (fun i => workerResult st work i))
        (initOutputs work st restart n) := by
      cases hok; rfl
    have hinitlen : (initOutputs work st restart n).length = n := by
      simp [initOutputs]
    have hlt : ∀ i ∈ notDoneIdx st restart n,
        i < (initOutputs work st restart n).length := by
      intro i hi; rw [hinitlen]; exact (mem_notDoneIdx.mp hi).1
    have hres : ∀ i ∈ notDoneIdx st restart n,
        workerResult st work i = some (unitTriple work i) := by
      intro i hi
      have hns : ¬(workerResult st work i).isNone := by
        intro hcon
        exact hc (List.any_eq_true.mpr ⟨i, hi, by simpa using hcon⟩)
      cases hwr : workerResult st work i with
      | none => rw [hwr] at hns; simp at hns
      | some t => exact congrArg some (workerResult_eq_some hwr)
    refine ⟨hres, ?_, ?_⟩
    · rw [hLeq, fillNotDone_length, hinitlen]
    · intro i hi
      rw [hLeq, fillNotDone_getElem? _ _ _ hlt i]
      by_cases hmem : i ∈ notDoneIdx st restart n
      · rw [if_pos hmem, hres i hmem]
      · rw [if_neg hmem]
        have hdone : unitDone restart (st.unitFiles i) = true := by
          by_contra hcon
          exact hmem (mem_notDoneIdx.mpr ⟨hi, by simpa using hcon⟩)
        simp [initOutputs, hi, hdone]

theorem scan_alignments_ok_eq {work : String} {st : DispatchState} {n : Nat}
    {order : List Nat} {restart : Bool}
    {L : List (Option (String × String × String))}
    (hperm : order.Perm (List.range (notDoneIdx st restart n).length))
    (hok : scan_alignments work st n order restart = Except.ok L) :
    L = (List.range n).map (fun i => some (unitTriple work i)) := by
  obtain ⟨-, hlen, hget⟩ := scan_alignments_ok_facts hperm hok
  apply List.ext_getElem?
  intro j
  by_cases hj : j < n
  · rw [hget j hj]; simp [hj]
  · rw [List.getElem?_eq_none (by omega), List.getElem?_eq_none (by simpa using hj)]

/-! ### Concrete states used by witnesses -/

def uAll : UnitFiles := ⟨true, true, true⟩

def uNone : UnitFiles := ⟨false, false, false⟩

/-- Unit 0 is Done on disk, unit 1 pending with an empty region file; the
binary is present and all external calls succeed. -/
def stOk : DispatchState :=
  ⟨fun i => if i = 0 then uAll else uNone, fun i => i == 0, true,
    fun _ => 0, fun _ => true, fun _ => true, fun _ => true⟩

/-- Same layout as `stOk`, but the external binary is missing. -/
def stNoBin : DispatchState :=
  ⟨fun i => if i = 0 then uAll else uNone, fun i => i == 0, false,
    fun _ => 0, fun _ => true, fun _ => true, fun _ => true⟩

/-- Every unit is Done on disk and every unit directory exists. -/
def stAllDone : DispatchState :=
  ⟨fun _ => uAll, fun _ => true, true, fun _ => 0, fun _ => true,
    fun _ => true, fun _ => true⟩

def envNoBin : WorkerEnv := ⟨false, false, 0, true, true, true⟩

def envEmptyRegion : WorkerEnv := ⟨true, false, 0, true, true, true⟩

/-! ### Claim theorems -/

/-- Claim C1 counterexample: the claim reads the two divisions of line 101 as
exact real-valued divisions before the ceiling.  They are Python 2 integer
floor divisions: at `total_len = 15000000`, `num_threads = 1` the code
computes `max((15000000/10000000/1)*1, 1) = 1`, while the claim's
real-division formula gives `max(ceil(1.5)*1, 1) = 2`. -/
theorem num_split_not_realdiv :
    num_split 15000000 1 = 1 ∧ num_split_realdiv 15000000 1 = 2 := by
  constructor
  · rfl
  · have h : ⌈((15000000 : Nat) : ℚ) / 10000000 / ((1 : Nat) : ℚ)⌉ = 2 := by
      rw [Int.ceil_eq_iff]
      constructor
      · push_cast; norm_num
      · push_cast; norm_num
    unfold num_split_realdiv
    rw [h]
    rfl

/-- Claim C1 (amended): for every `total_len ≥ 0` and `num_threads ≥ 1`, the
partitioner computes
`num_split = max((total_len // 10_000_000 // num_threads) * num_threads, num_threads)`
with floor (integer) divisions; in particular for `total_len = 25000000`,
`num_threads = 4` the result is 4, and `num_split` is always a multiple of
`num_threads` and at least `num_threads`. -/
theorem num_split_floor_formula (total_len num_threads : Nat)
    (h : 1 ≤ num_threads) :
    num_split total_len num_threads
      = max (total_len / 10000000 / num_threads * num_threads) num_threads ∧
    num_threads ∣ num_split total_len num_threads ∧
    num_threads ≤ num_split total_len num_threads ∧
    num_split 25000000 4 = 4 := by
  refine ⟨rfl, ?_, le_max_right _ _, by decide⟩
  unfold num_split
  rcases Nat.le_total (total_len / 10000000 / num_threads * num_threads)
      num_threads with hle | hle
  · rw [Nat.max_eq_right hle]
  · rw [Nat.max_eq_left hle]
    exact dvd_mul_left num_threads _

/-- Witness for the amended C1 at `total_len = 25000000`, `num_threads = 4`. -/
theorem num_split_floor_formula_witness :
    num_split 25000000 4
        = max (25000000 / 10000000 / 4 * 4) 4 ∧
      4 ∣ num_split 25000000 4 ∧ 4 ≤ num_split 25000000 4 ∧
      num_split 25000000 4 = 4 :=
  num_split_floor_formula 25000000 4 (by decide)

/-- Claim C2, evaluated on the code: with `restart=false`, no caller-supplied
list, a single prior `region_0.bed` covering 10 of an expected 1000 (1%, far
below 98%), the partitioner still reuses the prior file — the glob list stays
non-empty and unsorted, so the line 97 `if not split_region_files` test is
false and no repartitioning happens — contradicting the claimed repartition.
At ≥ 98% coverage (second conjunct) the reused files are indeed sorted by the
numeric chunk index. -/
theorem selectSplit_below_threshold_reuses :
    selectSplit false true [⟨0, 10⟩] 1000 4 = SplitChoice.reuse [⟨0, 10⟩] ∧
    selectSplit false true [⟨10, 500⟩, ⟨2, 480⟩] 1000 4
      = SplitChoice.reuse [⟨2, 480⟩, ⟨10, 500⟩] :=
  ⟨rfl, rfl⟩

/-- Claim C3: whenever the dispatcher succeeds, the returned list has exactly
one entry per input split file, and its i-th entry is the result triple of
the i-th input unit — the Done triple read from disk for skipped units, the
worker's returned triple for re-run units — for every pool completion
order. -/
theorem scan_alignments_order_invariant (work : String) (st : DispatchState)
    (n : Nat) (order : List Nat) (restart : Bool)
    (L : List (Option (String × String × String)))
    (hperm : order.Perm (List.range (notDoneIdx st restart n).length))
    (hok : scan_alignments work st n order restart = Except.ok L) :
    L.length = n ∧ ∀ i : Nat, i < n →
      L[i]? = some (if unitDone restart (st.unitFiles i) = true
        then some (unitTriple work i)
        else workerResult st work i) := by
  obtain ⟨hres, hlen, hget⟩ := scan_alignments_ok_facts hperm hok
  refine ⟨hlen, fun i hi => ?_⟩
  by_cases hdone : unitDone restart (st.unitFiles i) = true
  · rw [hget i hi, if_pos hdone]
  · rw [hget i hi, if_neg hdone,
      hres i (mem_notDoneIdx.mpr ⟨hi, by simpa using hdone⟩)]

/-- Witness for C3: two units, unit 0 skipped as Done, unit 1 re-run, pool
completion order `[0]`. -/
theorem scan_alignments_order_invariant_witness :
    ([some (unitTriple "w" 0), some (unitTriple "w" 1)] :
        List (Option (String × String × String))).length = 2 ∧
    ([some (unitTriple "w" 0), some (unitTriple "w" 1)] :
        List (Option (String × String × String)))[1]? =
      some (if unitDone false (stOk.unitFiles 1) = true
        then some (unitTriple "w" 1)
        else workerResult stOk "w" 1) :=
  ⟨(scan_alignments_order_invariant "w" stOk 2 [0] false
      [some (unitTriple "w" 0), some (unitTriple "w" 1)]
      (by decide) (by rfl)).1,
    (scan_alignments_order_invariant "w" stOk 2 [0] false
      [some (unitTriple "w" 0), some (unitTriple "w" 1)]
      (by decide) (by rfl)).2 1 (by norm_num)⟩

/-- Claim C4: if any submitted unit's worker returns the `None` sentinel, the
dispatcher raises (no partial result list); if every submitted unit yields a
result, the full n-entry list is returned. -/
theorem scan_alignments_all_or_nothing (work : String) (st : DispatchState)
    (n : Nat) (order : List Nat) (restart : Bool)
    (hperm : order.Perm (List.range (notDoneIdx st restart n).length)) :
    ((∃ i ∈ notDoneIdx st restart n, workerResult st work i = none) →
      scan_alignments work st n order restart = Except.error ()) ∧
    ((∀ i ∈ notDoneIdx st restart n, (workerResult st work i).isSome) →
      ∃ L, scan_alignments work st n order restart = Except.ok L ∧
        L.length = n) := by
  rw [scan_alignments_eq work st n order restart hperm]
  constructor
  · rintro ⟨i, hi, hnone⟩
    rw [if_pos (List.any_eq_true.mpr ⟨i, hi, by simp [hnone]⟩)]
  · intro hall
    have hc : ¬((notDoneIdx st restart n).any
        (fun i => (workerResult st work i).isNone) = true) := by
      rw [List.any_eq_true]
      rintro ⟨i, hi, hnone⟩
      have hs := hall i hi
      rw [Option.isNone_iff_eq_none] at hnone
      rw [hnone] at hs
      simp at hs
    rw [if_neg hc]
    refine ⟨_, rfl, ?_⟩
    rw [fillNotDone_length]
    simp [initOutputs]

/-- Witness for C4, failure side: with the external binary missing, unit 1 of
`stNoBin` returns the sentinel and the whole dispatch errors. -/
theorem scan_alignments_all_or_nothing_witness :
    scan_alignments "w" stNoBin 2 [0] false = Except.error () :=
  (scan_alignments_all_or_nothing "w" stNoBin 2 [0] false (by decide)).1
    ⟨1, by decide, rfl⟩

/-- Claim C5: with `restart = false` and all three outputs of every unit on
disk, no unit is queued, no directory is deleted, and the dispatcher returns
exactly the triples already on disk — the same list any successful producing
run returns; and a unit is skipped iff `restart` is false and all three files
exist. -/
theorem scan_alignments_idempotent (work : String) (st : DispatchState)
    (n : Nat) (order : List Nat)
    (hall : ∀ i, i < n → st.unitFiles i = ⟨true, true, true⟩) :
    notDoneIdx st false n = [] ∧
    deletedDirs st false n = [] ∧
    scan_alignments work st n order false =
      Except.ok ((List.range n).map (fun i => some (unitTriple work i))) ∧
    (∀ (restart' : Bool) (order' : List Nat)
        (L : List (Option (String × String × String))),
      order'.Perm (List.range (notDoneIdx st restart' n).length) →
      scan_alignments work st n order' restart' = Except.ok L →
      L = (List.range n).map (fun i => some (unitTriple work i))) ∧
    (∀ (r : Bool) (u : UnitFiles), unitDone r u = true ↔
      (r = false ∧ u.regionBed = true ∧ u.candidatesVcf = true ∧
        u.countBedGz = true)) := by
  have hnd : notDoneIdx st false n = [] := by
    rw [notDoneIdx, List.filter_eq_nil_iff]
    intro i hi
    simp [unitDone, hall i (List.mem_range.mp hi)]
  have hinit : initOutputs work st false n
      = (List.range n).map (fun i => some (unitTriple work i)) := by
    unfold initOutputs
    apply List.map_congr_left
    intro i hi
    simp [unitDone, hall i (List.mem_range.mp hi)]
  refine ⟨hnd, ?_, ?_, ?_, ?_⟩
  · rw [deletedDirs, hnd]; rfl
  · simp only [scan_alignments, hnd]
    simp [poolOutputs, fillNotDone, hinit]
  · intro restart' order' L hperm' hok'
    exact scan_alignments_ok_eq hperm' hok'
  · intro r u
    rcases u with ⟨a, b, c⟩
    cases r <;> cases a <;> cases b <;> cases c <;> simp [unitDone]

/-- Witness for C5: two fully-Done units, `restart = false`. -/
theorem scan_alignments_idempotent_witness :
    notDoneIdx stAllDone false 2 = [] ∧
    deletedDirs stAllDone false 2 = [] ∧
    scan_alignments "w" stAllDone 2 [] false =
      Except.ok ((List.range 2).map (fun i => some (unitTriple "w" i))) :=
  ⟨(scan_alignments_idempotent "w" stAllDone 2 [] (fun i _ => rfl)).1,
    (scan_alignments_idempotent "w" stAllDone 2 [] (fun i _ => rfl)).2.1,
    (scan_alignments_idempotent "w" stAllDone 2 [] (fun i _ => rfl)).2.2.1⟩

/-- Claim C6: a unit whose region file has zero intervals does not invoke the
external binary: the worker writes empty `candidates.vcf` / `count.bed`
directly, still indexes the count table and materializes `region.bed`, and
returns the three output paths (given the binary-existence check of line 33
and the indexing/concatenation steps succeed). -/
theorem worker_empty_region (env : WorkerEnv) (work : String)
    (hreg : env.regionCount = 0) (hbin : env.binaryExists = true)
    (htab : env.tabixOk = true) (hcat : env.concatOk = true) :
    (run_scan_alignments env work).invokedBinary = false ∧
    (run_scan_alignments env work).wroteEmptyOutputs = true ∧
    (run_scan_alignments env work).indexedCount = true ∧
    (run_scan_alignments env work).wroteRegionBed = true ∧
    (run_scan_alignments env work).result =
      some (work ++ "/candidates.vcf", work ++ "/count.bed.gz",
        work ++ "/region.bed") := by
  simp [run_scan_alignments, hreg, hbin, htab, hcat]

/-- Witness for C6 at a concrete empty-region environment. -/
theorem worker_empty_region_witness :
    (run_scan_alignments envEmptyRegion "w/work.0").invokedBinary = false ∧
    (run_scan_alignments envEmptyRegion "w/work.0").wroteEmptyOutputs = true ∧
    (run_scan_alignments envEmptyRegion "w/work.0").indexedCount = true ∧
    (run_scan_alignments envEmptyRegion "w/work.0").wroteRegionBed = true ∧
    (run_scan_alignments envEmptyRegion "w/work.0").result =
      some ("w/work.0" ++ "/candidates.vcf", "w/work.0" ++ "/count.bed.gz",
        "w/work.0" ++ "/region.bed") :=
  worker_empty_region envEmptyRegion "w/work.0" rfl rfl rfl rfl

/-- Claim C7: a unit that is not Done is queued; its stale `work.<i>`
directory, if present, is deleted (lines 117-118) before queueing, so the
worker starts with no directory and (when the binary exists, the line 33
check) recreates it fresh. -/
theorem pending_unit_cleanup (work : String) (st : DispatchState) (n : Nat)
    (restart : Bool) (i : Nat) (hi : i < n)
    (hnd : unitDone restart (st.unitFiles i) = false) :
    i ∈ notDoneIdx st restart n ∧
    (st.dirExists i = true → i ∈ deletedDirs st restart n) ∧
    (queuedEnv st i).workDirExists = false ∧
    (st.binaryExists = true →
      (run_scan_alignments (queuedEnv st i) (workPath work i)).createdWorkDir
        = true) := by
  have hmem : i ∈ notDoneIdx st restart n := mem_notDoneIdx.mpr ⟨hi, hnd⟩
  refine ⟨hmem, ?_, rfl, ?_⟩
  · intro hdir
    exact List.mem_filter.mpr ⟨hmem, hdir⟩
  · intro hbin
    by_cases h1 : st.regionCount i > 0 <;>
      by_cases h2 : st.binaryRunOk i <;>
      by_cases h3 : st.tabixOk i <;>
      by_cases h4 : st.concatOk i <;>
      simp [run_scan_alignments, queuedEnv, hbin, h1, h2, h3, h4]

/-- Witness for C7: pending unit 1 of `stOk` is queued and recreates its
directory; pending unit 0 of `stAllDone` under `restart = true` has its
existing directory deleted. -/
theorem pending_unit_cleanup_witness :
    1 ∈ notDoneIdx stOk false 2 ∧
    (run_scan_alignments (queuedEnv stOk 1) (workPath "w" 1)).createdWorkDir
      = true ∧
    0 ∈ deletedDirs stAllDone true 1 :=
  ⟨(pending_unit_cleanup "w" stOk 2 false 1 (by decide) (by decide)).1,
    (pending_unit_cleanup "w" stOk 2 false 1 (by decide) (by decide)).2.2.2
      rfl,
    (pending_unit_cleanup "w" stAllDone 1 true 0 (by decide)
      (by decide)).2.1 rfl⟩

/-- Claim C8: the worker checks the binary path before anything else
(line 33) and returns the `None` sentinel if it is missing — including for a
unit with zero region intervals, where the binary would never be invoked;
nothing is created in that case. -/
theorem worker_missing_binary (env : WorkerEnv) (work : String)
    (h : env.binaryExists = false) :
    (run_scan_alignments env work).result = none ∧
    (run_scan_alignments env work).invokedBinary = false ∧
    (run_scan_alignments env work).createdWorkDir = false := by
  simp [run_scan_alignments, h]

/-- Witness for C8 at an empty-region environment with the binary missing. -/
theorem worker_missing_binary_witness :
    envNoBin.regionCount = 0 ∧
    (run_scan_alignments envNoBin "w/work.1").result = none ∧
    (run_scan_alignments envNoBin "w/work.1").invokedBinary = false :=
  ⟨rfl, (worker_missing_binary envNoBin "w/work.1" rfl).1,
    (worker_missing_binary envNoBin "w/work.1" rfl).2.1⟩

/-- Claim C9: the Done and not-Done indices partition `{0..n-1}`; every slot
of the returned list is assigned exactly once, so on success the list has
exactly n entries and no unfilled placeholder (`none`) remains. -/
theorem scan_alignments_slots (work : String) (st : DispatchState) (n : Nat)
    (order : List Nat) (restart : Bool)
    (L : List (Option (String × String × String)))
    (hperm : order.Perm (List.range (notDoneIdx st restart n).length)) :
    (doneIdx st restart n ++ notDoneIdx st restart n).Perm (List.range n) ∧
    (∀ i, i ∈ doneIdx st restart n → i ∉ notDoneIdx st restart n) ∧
    (scan_alignments work st n order restart = Except.ok L →
      L.length = n ∧ ∀ i : Nat, i < n → ∃ t, L[i]? = some (some t)) := by
  refine ⟨List.filter_append_perm _ _, ?_, ?_⟩
  · intro i hd hn
    have h1 := (mem_doneIdx.mp hd).2
    have h2 := (mem_notDoneIdx.mp hn).2
    rw [h1] at h2
    exact absurd h2 (by simp)
  · intro hok
    obtain ⟨-, hlen, hget⟩ := scan_alignments_ok_facts hperm hok
    exact ⟨hlen, fun i hi => ⟨unitTriple work i, hget i hi⟩⟩

/-- Witness for C9 on the mixed Done/pending state `stOk`. -/
theorem scan_alignments_slots_witness :
    (doneIdx stOk false 2 ++ notDoneIdx stOk false 2).Perm (List.range 2) ∧
    ([some (unitTriple "w" 0), some (unitTriple "w" 1)] :
        List (Option (String × String × String))).length = 2 :=
  ⟨(scan_alignments_slots "w" stOk 2 [0] false
      [some (unitTriple "w" 0), some (unitTriple "w" 1)] (by decide)).1,
    ((scan_alignments_slots "w" stOk 2 [0] false
      [some (unitTriple "w" 0), some (unitTriple "w" 1)] (by decide)).2.2
      (by rfl)).1⟩

/-- Claim C10: the CLI call site passes no `restart` argument and the
parameter defaults to true, so every CLI invocation treats all units as
pending: no unit is Done, every unit is queued, every existing `work.<i>`
directory is deleted, the `region_*.bed` reuse scan never runs, and the
partitioner (absent a caller list) always repartitions freshly. -/
theorem cli_always_restarts (work : String) (st : DispatchState) (n : Nat)
    (order : List Nat) (globFiles : List PriorFile)
    (totalLen numThreads : Nat) :
    restart_default = true ∧
    cli_scan_alignments work st n order
      = scan_alignments work st n order true ∧
    doneIdx st true n = [] ∧
    notDoneIdx st true n = List.range n ∧
    deletedDirs st true n = (List.range n).filter (fun i => st.dirExists i) ∧
    scansPriorRegions true true = false ∧
    selectSplit true true globFiles totalLen numThreads
      = SplitChoice.fresh (num_split totalLen numThreads) := by
  refine ⟨rfl, rfl, ?_, ?_, ?_, rfl, ?_⟩
  · simp [doneIdx, unitDone]
  · simp [notDoneIdx, unitDone]
  · simp [deletedDirs, notDoneIdx, unitDone]
  · simp [selectSplit]

end ScanAlignments
